import Mathlib

/-!
# sdklauncher.c — a shallow embedding

The launcher of `src/sdklauncher/sdklauncher.c` is embedded as pure functions over
an explicit description of what the Windows platform answers (`Platform`), and
produces the list of platform calls it makes (`Event`).

* A `char` is a natural number (its byte value); a C string is read from a block of
  memory up to, and excluding, its first NUL byte.
* A pointer is an address, a natural number; `NULL` is the address `0`, and the
  relational operators on pointers compare addresses.
* A `DWORD` is a natural number below `2 ^ 32`; its subtraction wraps.
* The trace lines of `dprintf` go to `stderr` under `-v` only and decide nothing; they
  are left out.
-/

namespace SdkLauncher

/-! ## Constants of `windows.h` and of the C library -/

/-- The constant `MAX_PATH` of `windows.h`. -/
def MAX_PATH : Nat := 260

/-- The null pointer: the address `0`. -/
def NULL : Nat := 0

/-- The bytes of the string literal `"WARNING"`. -/
def WARNING : List Nat := [87, 65, 82, 78, 73, 78, 71]

/-- The bytes of the string literal `"ERROR"`. -/
def ERROR : List Nat := [69, 82, 82, 79, 82]

/-- The bytes of the string literal `"[INFO]"`. -/
def INFO : List Nat := [91, 73, 78, 70, 79, 93]

/-- The byte of the character literal for the backslash. -/
def BACKSLASH : Nat := 92

/-- Conversion of a `DWORD` to `int`, as in `int ret = GetTempPath(...)`. -/
def toInt (d : Nat) : Int :=
  if d % 2 ^ 32 < 2 ^ 31 then ((d % 2 ^ 32 : Nat) : Int) else ((d % 2 ^ 32 : Nat) : Int) - 2 ^ 32

/-- Subtraction of `DWORD`s, as in `num_left -= num_read`. -/
def dword_sub (a b : Nat) : Nat := (a + 2 ^ 32 - b % 2 ^ 32) % 2 ^ 32

/-! ## Memory blocks and C strings

A block is the list of its bytes; `base` is the address of its first byte. -/

/-- The C string that starts at address `s` within the block `mem` based at `base`:
the bytes from `s` up to, and excluding, the first NUL. -/
def cstr (base : Nat) (mem : List Nat) (s : Nat) : List Nat :=
  (mem.drop (s - base)).takeWhile (fun b => b ≠ 0)

/-- Offset of the first occurrence of `needle` in `hay`, if there is one. -/
def findSub (needle : List Nat) : List Nat → Option Nat
  | [] => if needle = [] then some 0 else none
  | h :: t =>
    if needle.isPrefixOf (h :: t) then some 0
    else (findSub needle t).map (fun i => i + 1)

/-- The C library's `strstr(s, needle)`: a pointer to the first occurrence of `needle`
in the C string at `s`, or `NULL`. -/
def strstr (base : Nat) (mem : List Nat) (s : Nat) (needle : List Nat) : Nat :=
  match findSub needle (cstr base mem s) with
  | some i => s + i
  | none => NULL

/-- The store `*q = 0` into the block. -/
def poke0 (base : Nat) (mem : List Nat) (q : Nat) : List Nat :=
  mem.set (q - base) 0

/-- A run of bytes written into the block at offset `off`, as `ReadFile` does. -/
def write (mem : List Nat) (off : Nat) (data : List Nat) : List Nat :=
  mem.take off ++ data ++ mem.drop (off + data.length)

/-! ## Platform calls -/

/-- The handles the launcher holds. -/
inductive HANDLE where
  | INVALID_HANDLE_VALUE
  | temp_handle
  | handle
  | hProcess
  | hThread
  deriving DecidableEq, Repr

/-- The platform calls the launcher makes, in the order it makes them. -/
inductive Event where
  | display_error (description : String)
  | GetTempPath
  | GetTempFileName
  | CreateFile_write
  | GetModuleFileName
  | CreateProcess (program_dir : List Nat)
  | WaitForSingleObject
  | CloseHandle (h : HANDLE)
  | CreateFile_read
  | ReadFile (num_left : Nat)
  | MessageBox (lpText : Nat) (text : List Nat) (lpCaption : String)
  | DeleteFile
  deriving DecidableEq, Repr

/-- What the platform answers to the launcher's calls during one run. -/
structure Platform where
  /-- Return value of `GetTempPath`, a `DWORD`. -/
  GetTempPath : Nat
  /-- Whether `GetTempFileName` returns nonzero. -/
  GetTempFileName : Bool
  /-- Whether the `CreateFile` of `create_temp_file` returns a valid handle. -/
  CreateFile_write : Bool
  /-- Return value of `GetModuleFileName`. -/
  GetModuleFileName : Nat
  /-- The `MAX_PATH` bytes of `program_dir` after `GetModuleFileName`. -/
  program_dir : List Nat
  /-- Whether `CreateProcess` returns nonzero. -/
  CreateProcess : Bool
  /-- Whether `CloseHandle(temp_handle)` returns nonzero. -/
  CloseHandle_temp : Bool
  /-- Whether the `CreateFile` of `read_temp_file` returns a valid handle. -/
  CreateFile_read : Bool
  /-- The address `malloc(size + 1)` returns. -/
  malloc : Nat
  /-- The bytes the block returned by `malloc` holds at first. -/
  heap : List Nat
  /-- The bytes of the temp file when it is read back. -/
  file : List Nat
  /-- The answer of the `calls`-th `ReadFile`, asked for `num_left` bytes with the file
  pointer at `filepos`: `none` when it fails, the number of bytes read otherwise. -/
  ReadFile : (calls filepos num_left : Nat) → Option Nat
  /-- Whether `CloseHandle(handle)` in `read_temp_file` returns nonzero. -/
  CloseHandle_read : Bool
  /-- Whether `DeleteFile` returns nonzero. -/
  DeleteFile : Bool

/-- The call `display_error(description)`: the description and the last platform error
go to `stderr` and into a message box titled "Android SDK Manager - Error". -/
def display_error (description : String) : List Event :=
  [Event.display_error description]

/-! ## `create_temp_file` -/

/-- The function `create_temp_file`: the handle it returns and the calls it makes. -/
def create_temp_file (P : Platform) : HANDLE × List Event :=
  let ret := toInt P.GetTempPath
  if ret > (MAX_PATH : Int) ∨ ret = 0 then
    (HANDLE.INVALID_HANDLE_VALUE, [Event.GetTempPath] ++ display_error "GetTempPath failed")
  else if P.GetTempFileName = false then
    (HANDLE.INVALID_HANDLE_VALUE,
      [Event.GetTempPath, Event.GetTempFileName] ++ display_error "GetTempFileName failed")
  else if P.CreateFile_write = false then
    (HANDLE.INVALID_HANDLE_VALUE,
      [Event.GetTempPath, Event.GetTempFileName, Event.CreateFile_write]
        ++ display_error "Create temp file failed")
  else
    (HANDLE.temp_handle, [Event.GetTempPath, Event.GetTempFileName, Event.CreateFile_write])

/-! ## `read_temp_file` -/

/-- The local variables of the read loop of `read_temp_file`, with the block `buffer`
points to, the file pointer of `handle`, and the calls made so far. -/
structure ReadState where
  mem : List Nat
  p : Nat
  num_left : Nat
  filepos : Nat
  calls : Nat
  events : List Event

/-- The `do ... while (num_read > 0)` loop of `read_temp_file`; `none` when `fuel`
iterations do not end it. -/
def read_temp_file_loop (P : Platform) : Nat → ReadState → Option ReadState
  | 0, _ => none
  | fuel + 1, st =>
    match P.ReadFile st.calls st.filepos st.num_left with
    | none =>
      some { st with
        calls := st.calls + 1
        events := st.events ++ [Event.ReadFile st.num_left] ++ display_error "Read Output failed" }
    | some num_read =>
      let st1 : ReadState :=
        { mem := write st.mem (st.p - P.malloc) ((P.file.drop st.filepos).take num_read)
          p := st.p + num_read
          num_left := dword_sub st.num_left num_read
          filepos := st.filepos + num_read
          calls := st.calls + 1
          events := st.events ++ [Event.ReadFile st.num_left] }
      if num_read > 0 then read_temp_file_loop P fuel st1 else some st1

/-- The block `if (p != buffer) { ... }` of `read_temp_file`: the search for the
keywords and the message box. -/
def read_temp_file_scan (buffer : Nat) (mem : List Nat) (p : Nat) : List Event :=
  if p ≠ buffer then
    let mem1 := poke0 buffer mem p
    let s1 := strstr buffer mem1 buffer WARNING
    let s2 := strstr buffer mem1 buffer ERROR
    let s1 := if s2 ≠ NULL ∧ s2 < s1 then s2 else s1
    if s1 ≠ NULL then
      let s2 := strstr buffer mem1 s1 INFO
      let mem2 := if s2 ≠ NULL then poke0 buffer mem1 s2 else mem1
      [Event.MessageBox s1 (cstr buffer mem2 s1) "Android SDK Manager - Output"]
    else []
  else []

/-- The size cap `DWORD size = 4096` of `read_temp_file`. -/
def size : Nat := 4096

/-- The function `read_temp_file`: the calls it makes; `none` when the read loop does
not end within `fuel` iterations. -/
def read_temp_file (P : Platform) (fuel : Nat) : Option (List Event) :=
  if P.CreateFile_read = false then
    some ([Event.CreateFile_read] ++ display_error "Open temp file failed")
  else
    let buffer := P.malloc
    let st0 : ReadState :=
      { mem := P.heap, p := buffer, num_left := size, filepos := 0, calls := 0,
        events := [Event.CreateFile_read] }
    match read_temp_file_loop P fuel st0 with
    | none => none
    | some st =>
      some (st.events ++ read_temp_file_scan buffer st.mem st.p
        ++ [Event.CloseHandle HANDLE.handle]
        ++ (if P.CloseHandle_read = false then
              display_error "CloseHandle read temp file failed" else []))

/-! ## `sdk_launcher` -/

/-- The loop `while (pos > 0 && program_dir[pos] != '\\') --pos;`: the value of `pos`
when it ends. -/
def strip_loop (program_dir : List Nat) : Nat → Nat
  | 0 => 0
  | pos + 1 =>
    if program_dir.getD (pos + 1) 0 ≠ BACKSLASH then strip_loop program_dir pos else pos + 1

/-- The `else` branch after `GetModuleFileName`: the last segment is removed from
`program_dir`. -/
def strip_dir (program_dir : List Nat) (ret : Nat) : List Nat :=
  let pos := strip_loop program_dir (ret - 1)
  program_dir.set pos 0

/-- The function `sdk_launcher`: its return value and the calls it makes; `none` when
the read loop of `read_temp_file` does not end within `fuel` iterations. -/
def sdk_launcher (P : Platform) (fuel : Nat) : Option (Int × List Event) :=
  let created := create_temp_file P
  if created.1 = HANDLE.INVALID_HANDLE_VALUE then
    some (1, created.2)
  else
    let ret := P.GetModuleFileName
    let dir : Int × List Nat × List Event :=
      if ret = 0 then
        (1, P.program_dir,
          [Event.GetModuleFileName] ++ display_error "Failed to get program's filename:")
      else
        (0, strip_dir P.program_dir ret, [Event.GetModuleFileName])
    let spawn : Int × List Event :=
      if dir.1 = 0 then
        if P.CreateProcess = false then
          (1, [Event.CreateProcess (cstr 0 dir.2.1 0)]
                ++ display_error "Failed to execute tools\\android.bat:")
        else
          (dir.1, [Event.CreateProcess (cstr 0 dir.2.1 0), Event.WaitForSingleObject,
                    Event.CloseHandle HANDLE.hProcess, Event.CloseHandle HANDLE.hThread])
      else (dir.1, [])
    let close : List Event :=
      [Event.CloseHandle HANDLE.temp_handle]
        ++ (if P.CloseHandle_temp = false then display_error "CloseHandle temp file failed" else [])
    let read : Option (List Event) :=
      if spawn.1 = 0 then read_temp_file P fuel else some []
    match read with
    | none => none
    | some evs =>
      some (spawn.1,
        created.2 ++ dir.2.2 ++ spawn.2 ++ close ++ evs
          ++ [Event.DeleteFile]
          ++ (if P.DeleteFile = false then display_error "Delete temp file failed" else []))

/-! ## Predicates and inputs the theorems are stated with -/

/-- The needle occurs in `text` first at offset `i`. -/
def firstAt (needle text : List Nat) (i : Nat) : Prop :=
  needle <+: text.drop i ∧ ∀ j, j < i → ¬ needle <+: text.drop j

/-- Whether the needle occurs in `text` first at offset `i` can be computed. -/
instance firstAt_decidable (needle text : List Nat) (i : Nat) :
    Decidable (firstAt needle text i) := by
  unfold firstAt
  infer_instance

/-- Where the scan of the C string `c` starts, as the two `strstr` calls and the
comparison `s2 != NULL && s2 < s1` decide it (offsets instead of pointers). -/
def scan_start (c : List Nat) : Option Nat :=
  match findSub WARNING c with
  | none => none
  | some w =>
    match findSub ERROR c with
    | none => some w
    | some e => if e < w then some e else some w

/-- The C string `t` cut before its first `"[INFO]"`, if it has one. -/
def cut_info (t : List Nat) : List Nat :=
  match findSub INFO t with
  | some j => t.take j
  | none => t

/-- The list `txt` is the part of `text` from offset `start` up to, and excluding, the
first `"[INFO]"` at or after `start`, or up to the end of `text` when there is none. -/
def is_excerpt (text : List Nat) (start : Nat) (txt : List Nat) : Prop :=
  (∃ j, firstAt INFO (text.drop start) j ∧ txt = (text.drop start).take j) ∨
    (¬ INFO <:+: text.drop start ∧ txt = text.drop start)

/-- A platform on which every call succeeds, the module path is `C:\a\b.e`, the temp
file holds `file`, and `ReadFile` returns all the bytes asked for that the file has. -/
def platform_ok (file : List Nat) : Platform :=
  { GetTempPath := 10
    GetTempFileName := true
    CreateFile_write := true
    GetModuleFileName := 8
    program_dir := [67, 58, 92, 97, 92, 98, 46, 101, 0] ++ List.replicate 251 0
    CreateProcess := true
    CloseHandle_temp := true
    CreateFile_read := true
    malloc := 4198400
    heap := List.replicate 4097 170
    file := file
    ReadFile := fun _ filepos num_left => some (min num_left (file.length - filepos))
    CloseHandle_read := true
    DeleteFile := true }

/-- `ReadFile` succeeds at every call, returns at most the number of bytes asked for and
at most the number of bytes the file still has, and returns `0` bytes only when `0`
bytes are asked for or the file pointer is at the end of the file. -/
def ReadFile_succeeds (P : Platform) : Prop :=
  ∀ calls filepos num_left, ∃ k, P.ReadFile calls filepos num_left = some k ∧
    k ≤ num_left ∧ k ≤ P.file.length - filepos ∧
    (k = 0 → num_left = 0 ∨ P.file.length ≤ filepos)

/-- The invariant of the read loop: `filepos` bytes of the file are in the block. -/
def loop_inv (P : Platform) (st : ReadState) : Prop :=
  st.p = P.malloc + st.filepos ∧ st.num_left = size - st.filepos ∧
    st.filepos ≤ min P.file.length size ∧ st.mem.length = size + 1 ∧
    st.mem.take st.filepos = P.file.take st.filepos

/-- A successful `ReadFile` returns at most the number of bytes asked for. -/
def ReadFile_bounded (P : Platform) : Prop :=
  ∀ calls filepos num_left k, P.ReadFile calls filepos num_left = some k → k ≤ num_left

/-- A fatal step of `sdk_launcher`: the temp file is not created, or the module path is
not resolved, or the child is not spawned. -/
def fatal (P : Platform) : Prop :=
  (create_temp_file P).1 = HANDLE.INVALID_HANDLE_VALUE ∨ P.GetModuleFileName = 0 ∨
    P.CreateProcess = false

/-- What `DeleteFile` and the report of its failure add to the calls. -/
def delete_events (P : Platform) : List Event :=
  [Event.DeleteFile]
    ++ (if P.DeleteFile = false then display_error "Delete temp file failed" else [])

/-- What `CloseHandle(temp_handle)` and the report of its failure add to the calls. -/
def close_events (P : Platform) : List Event :=
  [Event.CloseHandle HANDLE.temp_handle]
    ++ (if P.CloseHandle_temp = false then display_error "CloseHandle temp file failed" else [])

/-- A platform on which `GetTempPath` fails (it returns `0`). -/
def platform_no_temp_path : Platform :=
  { platform_ok [] with GetTempPath := 0 }

/-- A platform on which `CreateProcess` fails and every other call succeeds. -/
def platform_no_spawn : Platform :=
  { platform_ok [] with CreateProcess := false }

/-! ## Theorems -/

theorem infix_iff_prefix_drop (needle hay : List Nat) :
    needle <:+: hay ↔ ∃ j, needle <+: hay.drop j := by
  constructor
  · rintro ⟨s, t, rfl⟩
    exact ⟨s.length, t, by simp⟩
  · rintro ⟨j, t, ht⟩
    refine ⟨hay.take j, t, ?_⟩
    rw [List.append_assoc, ht, List.take_append_drop]

theorem findSub_none {needle : List Nat} :
    ∀ {hay : List Nat}, findSub needle hay = none → ∀ j, ¬ needle <+: hay.drop j := by
  intro hay
  induction hay with
  | nil =>
    intro h j hp
    simp only [findSub] at h
    split at h
    · cases h
    · rename_i hne
      simp only [List.drop_nil, List.prefix_nil] at hp
      exact hne hp
  | cons a t ih =>
    intro h j hp
    simp only [findSub] at h
    split at h
    · cases h
    · rename_i hpre
      cases j with
      | zero =>
        rw [List.drop_zero] at hp
        exact hpre (List.isPrefixOf_iff_prefix.mpr hp)
      | succ j =>
        cases hf : findSub needle t with
        | none => exact ih hf j (by simpa using hp)
        | some i => rw [hf] at h; cases h

theorem findSub_some {needle : List Nat} :
    ∀ {hay : List Nat} {i : Nat}, findSub needle hay = some i → firstAt needle hay i := by
  intro hay
  induction hay with
  | nil =>
    intro i h
    simp only [findSub] at h
    split at h
    · rename_i hn
      cases h
      subst hn
      exact ⟨by simp, fun j hj => absurd hj (Nat.not_lt_zero j)⟩
    · cases h
  | cons a t ih =>
    intro i h
    simp only [findSub] at h
    split at h
    · rename_i hpre
      cases h
      exact ⟨by simpa using List.isPrefixOf_iff_prefix.mp hpre,
        fun j hj => absurd hj (Nat.not_lt_zero j)⟩
    · rename_i hpre
      cases hf : findSub needle t with
      | none => rw [hf] at h; cases h
      | some k =>
        rw [hf] at h
        simp only [Option.map_some', Option.some.injEq] at h
        subst h
        obtain ⟨h1, h2⟩ := ih hf
        refine ⟨by simpa using h1, ?_⟩
        intro j hj hp
        cases j with
        | zero =>
          rw [List.drop_zero] at hp
          exact hpre (List.isPrefixOf_iff_prefix.mpr hp)
        | succ j => exact h2 j (by omega) (by simpa using hp)

theorem firstAt_unique {needle text : List Nat} {i j : Nat}
    (hi : firstAt needle text i) (hj : firstAt needle text j) : i = j := by
  rcases Nat.lt_trichotomy i j with h | h | h
  · exact absurd hi.1 (hj.2 i h)
  · exact h
  · exact absurd hj.1 (hi.2 j h)

theorem findSub_eq_some {needle text : List Nat} {i : Nat} (h : firstAt needle text i) :
    findSub needle text = some i := by
  cases hf : findSub needle text with
  | none => exact absurd h.1 (findSub_none hf i)
  | some k => rw [firstAt_unique (findSub_some hf) h]

theorem findSub_eq_none {needle text : List Nat} (h : ¬ needle <:+: text) :
    findSub needle text = none := by
  cases hf : findSub needle text with
  | none => rfl
  | some k =>
    exact absurd ((infix_iff_prefix_drop needle text).mpr ⟨k, (findSub_some hf).1⟩) h

theorem takeWhile_append_zero (c rest : List Nat) (hc : ∀ b ∈ c, b ≠ 0) :
    (c ++ 0 :: rest).takeWhile (fun b => b ≠ 0) = c := by
  induction c with
  | nil => simp [List.takeWhile]
  | cons a t ih =>
    have ha : a ≠ 0 := hc a (List.mem_cons_self a t)
    have ht : ∀ b ∈ t, b ≠ 0 := fun b hb => hc b (List.mem_cons_of_mem a hb)
    simpa [List.takeWhile, ha] using ih ht

theorem cstr_append_zero (base : Nat) (c rest : List Nat) (s : Nat)
    (hc : ∀ b ∈ c, b ≠ 0) (hs : s - base ≤ c.length) :
    cstr base (c ++ 0 :: rest) s = c.drop (s - base) := by
  unfold cstr
  rw [List.drop_append_of_le_length hs]
  exact takeWhile_append_zero _ _ (fun b hb => hc b (List.mem_of_mem_drop hb))

theorem set_append_zero (c rest : List Nat) (k : Nat) (hk : k < c.length) :
    ∃ rest1, (c ++ 0 :: rest).set k 0 = c.take k ++ 0 :: rest1 := by
  refine ⟨c.drop (k + 1) ++ 0 :: rest, ?_⟩
  induction c generalizing k with
  | nil => simp at hk
  | cons a t ih =>
    cases k with
    | zero => simp
    | succ k =>
      have hk1 : k < t.length := by simpa using hk
      simpa using ih k hk1

theorem set_zero_shape (mem : List Nat) (n : Nat) (hn : n < mem.length) :
    ∃ rest, mem.set n 0 = (mem.take n).takeWhile (fun b => b ≠ 0) ++ 0 :: rest := by
  induction mem generalizing n with
  | nil => simp at hn
  | cons a t ih =>
    cases n with
    | zero => exact ⟨t, by simp⟩
    | succ n =>
      have hn1 : n < t.length := by simpa using hn
      obtain ⟨rest, hrest⟩ := ih n hn1
      by_cases ha : a = 0
      · subst ha
        exact ⟨t.set n 0, by simp [List.takeWhile]⟩
      · exact ⟨rest, by simpa [List.takeWhile, ha] using hrest⟩

theorem mem_takeWhile_ne_zero (l : List Nat) : ∀ b ∈ l.takeWhile (fun b => b ≠ 0), b ≠ 0 := by
  intro b hb
  simpa using List.mem_takeWhile_imp hb

theorem findSub_lt_length {needle hay : List Nat} {i : Nat} (hne : needle ≠ [])
    (h : findSub needle hay = some i) : i < hay.length := by
  have hp := (findSub_some h).1
  by_contra hlt
  rw [List.drop_eq_nil_of_le (by omega), List.prefix_nil] at hp
  exact hne hp

theorem strstr_append_zero (base : Nat) (c rest : List Nat) (s : Nat) (needle : List Nat)
    (hc : ∀ b ∈ c, b ≠ 0) (hs : s - base ≤ c.length) :
    strstr base (c ++ 0 :: rest) s needle =
      match findSub needle (c.drop (s - base)) with
      | some i => s + i
      | none => NULL := by
  unfold strstr
  rw [cstr_append_zero base c rest s hc hs]

/-- The scanning block of `read_temp_file`, on a block that holds the C string `c`. -/
theorem scan_on_cstring (buffer : Nat) (mem c rest : List Nat) (p : Nat)
    (hb : 0 < buffer) (hp : p ≠ buffer) (hc : ∀ b ∈ c, b ≠ 0)
    (hmem : poke0 buffer mem p = c ++ 0 :: rest) :
    read_temp_file_scan buffer mem p =
      match scan_start c with
      | none => []
      | some i =>
        [Event.MessageBox (buffer + i) (cut_info (c.drop i)) "Android SDK Manager - Output"] := by
  have hshow : ∀ i, i < c.length →
      (let s2 := strstr buffer (c ++ 0 :: rest) (buffer + i) INFO
       let mem2 := if s2 ≠ NULL then poke0 buffer (c ++ 0 :: rest) s2 else c ++ 0 :: rest
       cstr buffer mem2 (buffer + i)) = cut_info (c.drop i) := by
    intro i hi
    have hsub : buffer + i - buffer = i := by omega
    simp only []
    rw [strstr_append_zero buffer c rest (buffer + i) INFO hc (by omega), hsub]
    unfold cut_info
    cases hf : findSub INFO (c.drop i) with
    | none =>
      simp only [NULL, ne_eq, not_true_eq_false, if_false]
      rw [cstr_append_zero buffer c rest (buffer + i) hc (by omega), hsub]
    | some j =>
      have hj : j < (c.drop i).length := findSub_lt_length (by decide) hf
      rw [List.length_drop] at hj
      have hne : buffer + i + j ≠ NULL := by unfold NULL; omega
      simp only [hne, ne_eq, not_false_eq_true, if_true]
      unfold poke0
      have hidx : buffer + i + j - buffer = i + j := by omega
      rw [hidx]
      obtain ⟨rest1, hrest1⟩ := set_append_zero c rest (i + j) (by omega)
      rw [hrest1, cstr_append_zero buffer (c.take (i + j)) rest1 (buffer + i)
        (fun b hb1 => hc b (List.mem_of_mem_take hb1)) (by rw [hsub, List.length_take]; omega),
        hsub]
      rw [List.drop_take]
      congr 1
      omega
  unfold read_temp_file_scan
  rw [if_pos hp]
  simp only [hmem]
  rw [strstr_append_zero buffer c rest buffer WARNING hc (by omega),
    strstr_append_zero buffer c rest buffer ERROR hc (by omega)]
  simp only [Nat.sub_self, List.drop_zero]
  unfold scan_start
  cases hw : findSub WARNING c with
  | none =>
    cases he : findSub ERROR c with
    | none => simp [NULL]
    | some e => simp [NULL]
  | some w =>
    have hwl : w < c.length := findSub_lt_length (by decide) hw
    cases he : findSub ERROR c with
    | none =>
      have := hshow w hwl
      simp only [] at this
      simp only [NULL, ne_eq, not_true_eq_false, false_and, if_false]
      have hne : ¬ buffer + w = 0 := by omega
      simp only [hne, not_false_eq_true, if_true]
      simpa [NULL] using this
    | some e =>
      have hel : e < c.length := findSub_lt_length (by decide) he
      have hne : ¬ buffer + e = 0 := by omega
      have hnw : ¬ buffer + w = 0 := by omega
      by_cases hlt : e < w
      · have := hshow e hel
        simp only [] at this
        have hlt2 : buffer + e < buffer + w := by omega
        simp only [NULL, ne_eq, hne, not_false_eq_true, hlt2, and_self, if_true, hlt]
        simpa [NULL] using this
      · have := hshow w hwl
        simp only [] at this
        have hlt2 : ¬ buffer + e < buffer + w := by omega
        simp only [NULL, ne_eq, hne, not_false_eq_true, hlt2, and_false, if_false, hlt, hnw,
          if_true]
        simpa [NULL] using this

theorem cut_info_is_excerpt (c : List Nat) (i : Nat) : is_excerpt c i (cut_info (c.drop i)) := by
  unfold is_excerpt cut_info
  cases hf : findSub INFO (c.drop i) with
  | none =>
    right
    refine ⟨?_, rfl⟩
    intro hin
    obtain ⟨j, hj⟩ := (infix_iff_prefix_drop _ _).mp hin
    exact findSub_none hf j hj
  | some j => exact Or.inl ⟨j, findSub_some hf, rfl⟩

theorem takeWhile_eq_self (l : List Nat) (h : ∀ b ∈ l, b ≠ 0) :
    l.takeWhile (fun b => b ≠ 0) = l := by
  induction l with
  | nil => rfl
  | cons a t ih =>
    have ha : a ≠ 0 := h a (List.mem_cons_self a t)
    have ht := ih (fun b hb => h b (List.mem_cons_of_mem a hb))
    simpa [List.takeWhile, ha] using ht

/-- The scanning block on the block `mem` of which the first `n` bytes were read:
what it shows is decided by the captured bytes before their first NUL. -/
theorem scan_eq (buffer : Nat) (mem : List Nat) (n : Nat) (hb : 0 < buffer)
    (hn : n < mem.length) :
    read_temp_file_scan buffer mem (buffer + n) =
      match scan_start ((mem.take n).takeWhile (fun b => b ≠ 0)) with
      | none => []
      | some i =>
        [Event.MessageBox (buffer + i)
          (cut_info (((mem.take n).takeWhile (fun b => b ≠ 0)).drop i)) "Android SDK Manager - Output"] := by
  by_cases h0 : n = 0
  · subst h0
    have : scan_start [] = none := by decide
    simp [read_temp_file_scan, this, List.takeWhile]
  · obtain ⟨rest, hrest⟩ := set_zero_shape mem n hn
    have hpoke : poke0 buffer mem (buffer + n) =
        (mem.take n).takeWhile (fun b => b ≠ 0) ++ 0 :: rest := by
      unfold poke0
      rw [Nat.add_sub_cancel_left]
      exact hrest
    exact scan_on_cstring buffer mem _ rest (buffer + n) hb (by omega)
      (mem_takeWhile_ne_zero _) hpoke

theorem keyword_before_info {kw t : List Nat} {j : Nat} (hkw : kw <+: t)
    (hinfo : INFO <+: t.drop j) (hne : ∀ b ∈ kw, b ≠ 91) : kw.length ≤ j := by
  by_contra hlt
  have hj : j < kw.length := by omega
  obtain ⟨r, rfl⟩ := hkw
  rw [List.drop_append_of_le_length (by omega), List.drop_eq_getElem_cons hj] at hinfo
  obtain ⟨r2, hr2⟩ := hinfo
  simp only [INFO, List.cons_append, List.cons.injEq] at hr2
  exact hne (kw[j]) (List.getElem_mem hj) hr2.1.symm

theorem keyword_prefix_cut_info {kw t : List Nat} (hkw : kw <+: t)
    (hne : ∀ b ∈ kw, b ≠ 91) : kw <+: cut_info t := by
  unfold cut_info
  cases hf : findSub INFO t with
  | none => exact hkw
  | some j =>
    have hle := keyword_before_info hkw (findSub_some hf).1 hne
    obtain ⟨r, rfl⟩ := hkw
    refine ⟨r.take (j - kw.length), ?_⟩
    show kw ++ List.take (j - kw.length) r = List.take j (kw ++ r)
    rw [List.take_append_eq_append_take, List.take_of_length_le hle]

theorem cut_info_is_prefix (t : List Nat) : cut_info t <+: t := by
  unfold cut_info
  cases findSub INFO t with
  | none => exact List.prefix_refl t
  | some j => exact List.take_prefix j t

theorem scan_without_warning (buffer : Nat) (mem : List Nat) (n : Nat) (hb : 0 < buffer)
    (hn : n < mem.length) (h : ¬ WARNING <:+: (mem.take n).takeWhile (fun b => b ≠ 0)) :
    read_temp_file_scan buffer mem (buffer + n) = [] := by
  rw [scan_eq buffer mem n hb hn]
  unfold scan_start
  rw [findSub_eq_none h]

/-- C1: the captured text `ERROR` (five bytes, none NUL) has `"ERROR"` at offset `0` and
no `"WARNING"`, yet on it the scanning block of `read_temp_file` shows nothing, and so
does the whole of `read_temp_file` on a temp file that holds these five bytes: with
`s1 == NULL` the test `s2 < s1` fails. -/
theorem read_temp_file_error_only_silent :
    firstAt ERROR (List.take 5 (ERROR ++ List.replicate 4092 170)) 0 ∧
    ¬ WARNING <:+: List.take 5 (ERROR ++ List.replicate 4092 170) ∧
    (∀ b ∈ List.take 5 (ERROR ++ List.replicate 4092 170), b ≠ 0) ∧
    read_temp_file_scan 4198400 (ERROR ++ List.replicate 4092 170) (4198400 + 5) = [] ∧
    read_temp_file (platform_ok ERROR) 2 =
      some [Event.CreateFile_read, Event.ReadFile 4096, Event.ReadFile 4091,
        Event.CloseHandle HANDLE.handle] := by
  refine ⟨by decide, by decide, by decide, by decide, by decide⟩

theorem scan_start_error_first {c : List Nat} {e w : Nat} (he : firstAt ERROR c e)
    (hw : firstAt WARNING c w) (hlt : e < w) : scan_start c = some e := by
  unfold scan_start
  rw [findSub_eq_some hw]
  simp only [findSub_eq_some he, hlt, if_true]

theorem scan_start_warning_first {c : List Nat} {w : Nat} (hw : firstAt WARNING c w)
    (herr : ¬ ERROR <:+: c ∨ ∃ e, firstAt ERROR c e ∧ w < e) : scan_start c = some w := by
  unfold scan_start
  rw [findSub_eq_some hw]
  rcases herr with h | ⟨e, he, hlt⟩
  · simp only [findSub_eq_none h]
  · have : ¬ e < w := by omega
    simp only [findSub_eq_some he, this, if_false]

/-- C2: when the captured text (the first `n` bytes of the block, none of them NUL, with
room left in the block for the terminating NUL) has its first `"ERROR"` at offset `e`
and its first `"WARNING"` at a larger offset `w`, the scanning block of `read_temp_file`
shows one notification, whose text pointer is `buffer + e` and whose text is a run of
the captured bytes from offset `e` on that starts with `"ERROR"`. -/
theorem read_temp_file_error_before_warning (buffer : Nat) (mem : List Nat) (n e w : Nat)
    (hb : 0 < buffer) (hn : n < mem.length) (hnul : ∀ b ∈ mem.take n, b ≠ 0)
    (he : firstAt ERROR (mem.take n) e) (hw : firstAt WARNING (mem.take n) w)
    (hlt : e < w) :
    ∃ text, read_temp_file_scan buffer mem (buffer + n) =
        [Event.MessageBox (buffer + e) text "Android SDK Manager - Output"] ∧
      text <+: (mem.take n).drop e ∧ ERROR <+: text := by
  refine ⟨cut_info ((mem.take n).drop e), ?_, cut_info_is_prefix _, ?_⟩
  · rw [scan_eq buffer mem n hb hn, takeWhile_eq_self _ hnul,
      scan_start_error_first he hw hlt]
  · exact keyword_prefix_cut_info he.1 (by decide)

/-- C3: when the captured text (the first `n` bytes of the block, none of them NUL, with
room left in the block for the terminating NUL) has its first `"WARNING"` at offset `w`,
and `"ERROR"` does not occur in it or occurs first after `w`, the scanning block of
`read_temp_file` shows one notification, whose text pointer is `buffer + w` and whose
text is a run of the captured bytes from offset `w` on that starts with `"WARNING"`. -/
theorem read_temp_file_warning_first (buffer : Nat) (mem : List Nat) (n w : Nat)
    (hb : 0 < buffer) (hn : n < mem.length) (hnul : ∀ b ∈ mem.take n, b ≠ 0)
    (hw : firstAt WARNING (mem.take n) w)
    (herr : ¬ ERROR <:+: mem.take n ∨ ∃ e, firstAt ERROR (mem.take n) e ∧ w < e) :
    ∃ text, read_temp_file_scan buffer mem (buffer + n) =
        [Event.MessageBox (buffer + w) text "Android SDK Manager - Output"] ∧
      text <+: (mem.take n).drop w ∧ WARNING <+: text := by
  refine ⟨cut_info ((mem.take n).drop w), ?_, cut_info_is_prefix _, ?_⟩
  · rw [scan_eq buffer mem n hb hn, takeWhile_eq_self _ hnul,
      scan_start_warning_first hw herr]
  · exact keyword_prefix_cut_info hw.1 (by decide)

theorem cstr_prefix_captured (buffer : Nat) (mem : List Nat) (p : Nat) :
    cstr buffer (poke0 buffer mem p) buffer <+: mem.take (p - buffer) := by
  unfold cstr poke0
  rw [Nat.sub_self, List.drop_zero]
  by_cases hlt : p - buffer < mem.length
  · obtain ⟨rest, hrest⟩ := set_zero_shape mem (p - buffer) hlt
    rw [hrest, takeWhile_append_zero _ _ (mem_takeWhile_ne_zero _)]
    exact List.takeWhile_prefix _
  · rw [List.set_eq_of_length_le (by omega), List.take_of_length_le (by omega)]
    exact List.takeWhile_prefix _

/-- C4: when the captured output (the bytes of the block between `buffer` and `p`, none
when `p = buffer`) contains neither `"WARNING"` nor `"ERROR"`, the scanning block of
`read_temp_file` makes no call at all: no notification is shown. -/
theorem read_temp_file_no_keyword_silent (buffer : Nat) (mem : List Nat) (p : Nat)
    (hw : ¬ WARNING <:+: mem.take (p - buffer)) (he : ¬ ERROR <:+: mem.take (p - buffer)) :
    read_temp_file_scan buffer mem p = [] := by
  have hpre := cstr_prefix_captured buffer mem p
  have h1 : findSub WARNING (cstr buffer (poke0 buffer mem p) buffer) = none :=
    findSub_eq_none (fun h => hw (h.trans hpre.isInfix))
  have h2 : findSub ERROR (cstr buffer (poke0 buffer mem p) buffer) = none :=
    findSub_eq_none (fun h => he (h.trans hpre.isInfix))
  unfold read_temp_file_scan
  by_cases hp : p ≠ buffer
  · rw [if_pos hp]
    simp [strstr, h1, h2, NULL]
  · rw [if_neg hp]

/-- C5, as amended: whenever the scanning block of `read_temp_file` shows a
notification, its text pointer is `buffer + start` for an offset `start`, and its text
is the part, from `start` up to and excluding the first `"[INFO]"` at or after `start`
(or up to the end when there is none), of the captured bytes before their first NUL;
that is of the whole captured text when no byte of it is NUL. -/
theorem read_temp_file_excerpt (buffer : Nat) (mem : List Nat) (n : Nat)
    (hb : 0 < buffer) (hn : n < mem.length) (lpText : Nat) (text : List Nat)
    (lpCaption : String)
    (hshown : Event.MessageBox lpText text lpCaption ∈
      read_temp_file_scan buffer mem (buffer + n)) :
    ∃ start, lpText = buffer + start ∧
      is_excerpt ((mem.take n).takeWhile (fun b => b ≠ 0)) start text ∧
      ((∀ b ∈ mem.take n, b ≠ 0) → is_excerpt (mem.take n) start text) := by
  rw [scan_eq buffer mem n hb hn] at hshown
  cases hs : scan_start ((mem.take n).takeWhile (fun b => b ≠ 0)) with
  | none => rw [hs] at hshown; simp at hshown
  | some i =>
    rw [hs] at hshown
    simp only [List.mem_singleton, Event.MessageBox.injEq] at hshown
    obtain ⟨h1, h2, _⟩ := hshown
    have hex : is_excerpt ((mem.take n).takeWhile (fun b => b ≠ 0)) i text :=
      h2 ▸ cut_info_is_excerpt _ i
    refine ⟨i, h1, hex, fun hnul => ?_⟩
    rw [takeWhile_eq_self _ hnul] at hex
    exact hex

/-- Witness of C2 on the captured text `ERROR WARNING` followed by a line feed. -/
theorem read_temp_file_error_before_warning_witness :
    ∃ text, read_temp_file_scan 4198400 (ERROR ++ 32 :: WARNING ++ [10, 170]) (4198400 + 14) =
        [Event.MessageBox (4198400 + 0) text "Android SDK Manager - Output"] ∧
      text <+: (List.take 14 (ERROR ++ 32 :: WARNING ++ [10, 170])).drop 0 ∧ ERROR <+: text :=
  read_temp_file_error_before_warning 4198400 (ERROR ++ 32 :: WARNING ++ [10, 170]) 14 0 6
    (by decide) (by decide) (by decide) (by decide) (by decide) (by decide)

/-- Witness of C3 on the captured text `WARNING ERROR` followed by a line feed. -/
theorem read_temp_file_warning_first_witness :
    ∃ text, read_temp_file_scan 4198400 (WARNING ++ 32 :: ERROR ++ [10, 170]) (4198400 + 14) =
        [Event.MessageBox (4198400 + 0) text "Android SDK Manager - Output"] ∧
      text <+: (List.take 14 (WARNING ++ 32 :: ERROR ++ [10, 170])).drop 0 ∧ WARNING <+: text :=
  read_temp_file_warning_first 4198400 (WARNING ++ 32 :: ERROR ++ [10, 170]) 14 0
    (by decide) (by decide) (by decide) (by decide) (Or.inr ⟨8, by decide, by decide⟩)

/-- Witness of C4 on the captured text `INFO`. -/
theorem read_temp_file_no_keyword_silent_witness :
    read_temp_file_scan 4198400 [73, 78, 70, 79, 170] (4198400 + 4) = [] :=
  read_temp_file_no_keyword_silent 4198400 [73, 78, 70, 79, 170] (4198400 + 4)
    (by decide) (by decide)

/-- C5 as stated fails: on the captured bytes `WARNING`, NUL, `A` the notification shows
`WARNING`, which is not the captured text from the scan start to its end, although
that text has no `"[INFO]"`. -/
theorem read_temp_file_excerpt_stops_at_nul :
    Event.MessageBox 4198400 WARNING "Android SDK Manager - Output" ∈
        read_temp_file_scan 4198400 (WARNING ++ [0, 65, 170]) (4198400 + 9) ∧
      ¬ is_excerpt (List.take 9 (WARNING ++ [0, 65, 170])) 0 WARNING := by
  refine ⟨by decide, ?_⟩
  rintro (⟨j, hj, -⟩ | ⟨-, h⟩)
  · have hin : INFO <:+: (List.take 9 (WARNING ++ [0, 65, 170])).drop 0 :=
      (infix_iff_prefix_drop _ _).mpr ⟨j, hj.1⟩
    revert hin
    decide
  · revert h
    decide

/-- Witness of C5 on the captured text `WARNING x[INFO]y`. -/
theorem read_temp_file_excerpt_witness :
    ∃ start, 4198400 = 4198400 + start ∧
      is_excerpt ((List.take 16 (WARNING ++ 32 :: 120 :: INFO ++ [121, 170])).takeWhile
        (fun b => b ≠ 0)) start (WARNING ++ [32, 120]) ∧
      ((∀ b ∈ List.take 16 (WARNING ++ 32 :: 120 :: INFO ++ [121, 170]), b ≠ 0) →
        is_excerpt (List.take 16 (WARNING ++ 32 :: 120 :: INFO ++ [121, 170])) start
          (WARNING ++ [32, 120])) :=
  read_temp_file_excerpt 4198400 (WARNING ++ 32 :: 120 :: INFO ++ [121, 170]) 16
    (by decide) (by decide) 4198400 (WARNING ++ [32, 120]) "Android SDK Manager - Output"
    (by decide)

theorem dword_sub_eq (a b : Nat) (ha : a < 2 ^ 32) (hb : b ≤ a) : dword_sub a b = a - b := by
  unfold dword_sub
  have h32 : (2 : Nat) ^ 32 = 4294967296 := by norm_num
  rw [h32] at ha ⊢
  omega

theorem write_length (mem : List Nat) (off : Nat) (data : List Nat)
    (h : off + data.length ≤ mem.length) : (write mem off data).length = mem.length := by
  unfold write
  simp only [List.length_append, List.length_take, List.length_drop]
  omega

theorem write_take (mem : List Nat) (off : Nat) (data : List Nat) (h : off ≤ mem.length) :
    (write mem off data).take (off + data.length) = mem.take off ++ data := by
  unfold write
  have hlen : (mem.take off ++ data).length = off + data.length := by
    simp only [List.length_append, List.length_take]
    omega
  rw [← hlen, List.take_left']
  rfl

theorem read_loop_terminates (P : Platform) (hRF : ReadFile_succeeds P) :
    ∀ (fuel : Nat) (st : ReadState), loop_inv P st → size - st.filepos + 1 ≤ fuel →
      ∃ st1, read_temp_file_loop P fuel st = some st1 ∧ loop_inv P st1 ∧
        st1.filepos = min P.file.length size := by
  intro fuel
  induction fuel with
  | zero => intro st _ hf; omega
  | succ fuel ih =>
    intro st hinv hf
    obtain ⟨hp, hleft, hpos, hlen, htake⟩ := hinv
    obtain ⟨k, hk, hk1, hk2, hk3⟩ := hRF st.calls st.filepos st.num_left
    have hsize : size = 4096 := rfl
    have hoff : st.p - P.malloc = st.filepos := by omega
    have hdata : ((P.file.drop st.filepos).take k).length = k := by
      rw [List.length_take, List.length_drop]
      omega
    have hsub : dword_sub st.num_left k = size - (st.filepos + k) := by
      rw [dword_sub_eq _ _ (by rw [hleft, hsize]; norm_num; omega) hk1, hleft]
      omega
    have hinv1 : loop_inv P
        { mem := write st.mem (st.p - P.malloc) ((P.file.drop st.filepos).take k)
          p := st.p + k
          num_left := dword_sub st.num_left k
          filepos := st.filepos + k
          calls := st.calls + 1
          events := st.events ++ [Event.ReadFile st.num_left] } := by
      refine ⟨?_, hsub, ?_, ?_, ?_⟩
      · show st.p + k = P.malloc + (st.filepos + k)
        omega
      · show st.filepos + k ≤ min P.file.length size
        omega
      · show (write st.mem (st.p - P.malloc) ((P.file.drop st.filepos).take k)).length
          = size + 1
        rw [write_length _ _ _ (by rw [hdata, hoff]; omega), hlen]
      · show (write st.mem (st.p - P.malloc) ((P.file.drop st.filepos).take k)).take
          (st.filepos + k) = P.file.take (st.filepos + k)
        rw [hoff]
        have := write_take st.mem st.filepos ((P.file.drop st.filepos).take k) (by omega)
        rw [hdata] at this
        rw [this, htake, List.take_add]
    simp only [read_temp_file_loop, hk]
    by_cases hpos0 : k > 0
    · rw [if_pos hpos0]
      exact ih _ hinv1 (by show size - (st.filepos + k) + 1 ≤ fuel; omega)
    · rw [if_neg hpos0]
      refine ⟨_, rfl, hinv1, ?_⟩
      show st.filepos + k = min P.file.length size
      have hk0 : k = 0 := by omega
      rcases hk3 hk0 with h | h <;> omega

/-- C9: when every `ReadFile` succeeds, returns at most the bytes asked for and at most
the bytes the file still has, and returns `0` bytes only at the end of the file or when
`0` bytes are asked for, the read loop of `read_temp_file` ends within `size + 1`
iterations, with `p` at offset `min n size` of the block, the first `min n size` bytes
of the block being the first `min n size` bytes of the file (of `n` bytes), and the
block still `size + 1` bytes long, so that the store `*p = 0` is inside it. -/
theorem read_temp_file_loop_reads_prefix (P : Platform) (fuel : Nat)
    (hheap : P.heap.length = size + 1) (hRF : ReadFile_succeeds P)
    (hfuel : size + 1 ≤ fuel) :
    ∃ st, read_temp_file_loop P fuel
        { mem := P.heap, p := P.malloc, num_left := size, filepos := 0, calls := 0,
          events := [Event.CreateFile_read] } = some st ∧
      st.p = P.malloc + min P.file.length size ∧
      st.mem.take (min P.file.length size) = P.file.take (min P.file.length size) ∧
      st.mem.length = size + 1 ∧
      st.p - P.malloc ≤ size ∧ st.p - P.malloc < st.mem.length := by
  have hinv0 : loop_inv P
      { mem := P.heap, p := P.malloc, num_left := size, filepos := 0, calls := 0,
        events := [Event.CreateFile_read] } :=
    ⟨rfl, rfl, Nat.zero_le _, hheap, rfl⟩
  obtain ⟨st, hst, ⟨hp, _, _, hlen, htake⟩, hfin⟩ :=
    read_loop_terminates P hRF fuel _ hinv0 (by show size - 0 + 1 ≤ fuel; omega)
  refine ⟨st, hst, ?_, ?_, hlen, ?_, ?_⟩
  · rw [hp, hfin]
  · rw [← hfin]; exact htake
  · rw [hp, hfin]; omega
  · rw [hp, hfin, hlen]; omega

theorem platform_ok_ReadFile_succeeds (file : List Nat) : ReadFile_succeeds (platform_ok file) := by
  intro calls filepos num_left
  refine ⟨min num_left (file.length - filepos), rfl, ?_, ?_, ?_⟩
  · exact Nat.min_le_left _ _
  · exact Nat.min_le_right _ _
  · intro h
    show num_left = 0 ∨ file.length ≤ filepos
    omega

/-- Witness of C9 on a temp file that holds the two bytes `Hi`. -/
theorem read_temp_file_loop_reads_prefix_witness :
    ∃ st, read_temp_file_loop (platform_ok [72, 105]) 4097
        { mem := (platform_ok [72, 105]).heap, p := (platform_ok [72, 105]).malloc,
          num_left := size, filepos := 0, calls := 0,
          events := [Event.CreateFile_read] } = some st ∧
      st.p = (platform_ok [72, 105]).malloc + min (platform_ok [72, 105]).file.length size ∧
      st.mem.take (min (platform_ok [72, 105]).file.length size) =
        (platform_ok [72, 105]).file.take (min (platform_ok [72, 105]).file.length size) ∧
      st.mem.length = size + 1 ∧
      st.p - (platform_ok [72, 105]).malloc ≤ size ∧
      st.p - (platform_ok [72, 105]).malloc < st.mem.length :=
  read_temp_file_loop_reads_prefix (platform_ok [72, 105]) 4097
    (List.length_replicate 4097 170) (platform_ok_ReadFile_succeeds [72, 105]) (by decide)

theorem strip_loop_le (d : List Nat) (pos : Nat) : strip_loop d pos ≤ pos := by
  induction pos with
  | zero => simp [strip_loop]
  | succ pos ih =>
    unfold strip_loop
    split
    · omega
    · exact Nat.le_refl _

theorem strip_loop_backslash (d : List Nat) (pos : Nat) (h : 0 < strip_loop d pos) :
    d.getD (strip_loop d pos) 0 = BACKSLASH := by
  induction pos with
  | zero => simp [strip_loop] at h
  | succ pos ih =>
    unfold strip_loop at h ⊢
    split
    · rename_i hne
      rw [if_pos hne] at h
      exact ih h
    · rename_i hne
      exact not_not.mp hne

theorem strip_loop_last (d : List Nat) (pos : Nat) :
    ∀ j, strip_loop d pos < j → j ≤ pos → d.getD j 0 ≠ BACKSLASH := by
  induction pos with
  | zero => intro j h1 h2; simp [strip_loop] at h1; omega
  | succ pos ih =>
    intro j h1 h2
    unfold strip_loop at h1
    split at h1
    · rename_i hne
      by_cases hj : j = pos + 1
      · rw [hj]; exact hne
      · exact ih j h1 (by omega)
    · omega

/-- C10: for a module path of `ret` bytes, `1 ≤ ret ≤ MAX_PATH`, held in the `MAX_PATH`
bytes of `program_dir`, the directory-stripping loop (a total function) ends with `pos`
between `0` and `ret - 1`, inside the array; `pos` is the index of the last backslash of
the path at an index greater than `0`, or `0` when there is none; the store leaves the
bytes before `pos` as they were and a NUL at `pos`, so that `program_dir` holds the
prefix of the path before `pos` (the path has no NUL byte), which is the empty string
when the path has no backslash at an index greater than `0`. -/
theorem sdk_launcher_strip_dir (program_dir : List Nat) (ret : Nat)
    (h1 : 1 ≤ ret) (h2 : ret ≤ MAX_PATH) (hlen : program_dir.length = MAX_PATH) :
    strip_loop program_dir (ret - 1) ≤ ret - 1 ∧
    strip_loop program_dir (ret - 1) < program_dir.length ∧
    (0 < strip_loop program_dir (ret - 1) →
      program_dir.getD (strip_loop program_dir (ret - 1)) 0 = BACKSLASH) ∧
    (∀ j, strip_loop program_dir (ret - 1) < j → j < ret →
      program_dir.getD j 0 ≠ BACKSLASH) ∧
    (strip_dir program_dir ret).length = MAX_PATH ∧
    (strip_dir program_dir ret).take (strip_loop program_dir (ret - 1)) =
      program_dir.take (strip_loop program_dir (ret - 1)) ∧
    (strip_dir program_dir ret).getD (strip_loop program_dir (ret - 1)) 1 = 0 ∧
    ((∀ b ∈ program_dir.take ret, b ≠ 0) →
      cstr 0 (strip_dir program_dir ret) 0 =
        program_dir.take (strip_loop program_dir (ret - 1))) ∧
    ((∀ j, 0 < j → j < ret → program_dir.getD j 0 ≠ BACKSLASH) →
      cstr 0 (strip_dir program_dir ret) 0 = []) := by
  have hle := strip_loop_le program_dir (ret - 1)
  have hlt : strip_loop program_dir (ret - 1) < program_dir.length := by omega
  have hset : strip_dir program_dir ret =
      program_dir.take (strip_loop program_dir (ret - 1)) ++
        0 :: program_dir.drop (strip_loop program_dir (ret - 1) + 1) := by
    unfold strip_dir
    simp only [List.set_eq_take_append_cons_drop, hlt, if_true]
  have hlentake : (program_dir.take (strip_loop program_dir (ret - 1))).length =
      strip_loop program_dir (ret - 1) := by
    rw [List.length_take]; omega
  refine ⟨hle, hlt, strip_loop_backslash program_dir (ret - 1),
    fun j hj1 hj2 => strip_loop_last program_dir (ret - 1) j hj1 (by omega), ?_, ?_, ?_, ?_, ?_⟩
  · unfold strip_dir
    simp only [List.length_set, hlen]
  · rw [hset]
    nth_rewrite 1 [← hlentake]
    rw [List.take_left']
    rfl
  · rw [hset, List.getD_eq_getElem?_getD, List.getElem?_append_right (by omega), hlentake]
    simp
  · intro hnul
    rw [hset]
    unfold cstr
    rw [Nat.sub_self, List.drop_zero]
    apply takeWhile_append_zero
    intro b hb
    apply hnul b
    have hsub : program_dir.take (strip_loop program_dir (ret - 1)) <+: program_dir.take ret :=
      (List.take_prefix_take_left program_dir (by omega))
    exact hsub.subset hb
  · intro hno
    have hpos : strip_loop program_dir (ret - 1) = 0 := by
      by_contra hne
      have hp : 0 < strip_loop program_dir (ret - 1) := by omega
      exact hno _ hp (by omega) (strip_loop_backslash program_dir (ret - 1) hp)
    rw [hset, hpos]
    simp [cstr, List.takeWhile]

/-- Witness of C10 on the module path `C:\a\b.e`. -/
theorem sdk_launcher_strip_dir_witness :
    strip_loop (platform_ok []).program_dir (8 - 1) = 4 ∧
    cstr 0 (strip_dir (platform_ok []).program_dir 8) 0 = [67, 58, 92, 97] ∧
    cstr 0 (strip_dir (platform_ok []).program_dir 8) 0 =
      (platform_ok []).program_dir.take (strip_loop (platform_ok []).program_dir (8 - 1)) :=
  ⟨by decide, by decide,
    (sdk_launcher_strip_dir (platform_ok []).program_dir 8 (by decide) (by decide)
      (by
        show ([67, 58, 92, 97, 92, 98, 46, 101, 0] ++ List.replicate 251 0).length = 260
        rw [List.length_append, List.length_replicate]
        rfl)).2.2.2.2.2.2.2.1 (by decide)⟩

theorem read_loop_total (P : Platform) (hRF : ReadFile_bounded P) :
    ∀ (fuel : Nat) (st : ReadState), st.num_left < 2 ^ 32 → st.num_left + 1 ≤ fuel →
      ∃ st1, read_temp_file_loop P fuel st = some st1 := by
  intro fuel
  induction fuel with
  | zero => intro st _ hf; omega
  | succ fuel ih =>
    intro st hlt hf
    cases hk : P.ReadFile st.calls st.filepos st.num_left with
    | none =>
      simp only [read_temp_file_loop, hk]
      exact ⟨_, rfl⟩
    | some k =>
      have hle := hRF _ _ _ _ hk
      simp only [read_temp_file_loop, hk]
      by_cases hpos : k > 0
      · rw [if_pos hpos]
        apply ih
        · show dword_sub st.num_left k < 2 ^ 32
          rw [dword_sub_eq _ _ hlt hle]; omega
        · show dword_sub st.num_left k + 1 ≤ fuel
          rw [dword_sub_eq _ _ hlt hle]; omega
      · rw [if_neg hpos]
        exact ⟨_, rfl⟩

theorem read_temp_file_total (P : Platform) (fuel : Nat) (hRF : ReadFile_bounded P)
    (hfuel : size + 1 ≤ fuel) : ∃ evs, read_temp_file P fuel = some evs := by
  unfold read_temp_file
  by_cases ho : P.CreateFile_read = false
  · rw [if_pos ho]; exact ⟨_, rfl⟩
  · rw [if_neg ho]
    obtain ⟨st1, hst1⟩ := read_loop_total P hRF fuel
      { mem := P.heap, p := P.malloc, num_left := size, filepos := 0, calls := 0,
        events := [Event.CreateFile_read] } (by show size < 2 ^ 32; decide) hfuel
    simp only [hst1]
    exact ⟨_, rfl⟩

theorem create_temp_file_valid (P : Platform)
    (h : (create_temp_file P).1 ≠ HANDLE.INVALID_HANDLE_VALUE) :
    create_temp_file P =
      (HANDLE.temp_handle,
        [Event.GetTempPath, Event.GetTempFileName, Event.CreateFile_write]) := by
  unfold create_temp_file at h ⊢
  simp only [] at h ⊢
  split_ifs at h ⊢ <;> first | rfl | exact absurd rfl h

theorem create_temp_file_invalid_iff (P : Platform) :
    (create_temp_file P).1 = HANDLE.INVALID_HANDLE_VALUE ↔
      (toInt P.GetTempPath > (MAX_PATH : Int) ∨ toInt P.GetTempPath = 0 ∨
        P.GetTempFileName = false ∨ P.CreateFile_write = false) := by
  unfold create_temp_file
  simp only []
  split_ifs with h1 h2 h3
  · rcases h1 with h | h
    · simp [h]
    · simp [h]
  · have h1a : ¬ toInt P.GetTempPath > (MAX_PATH : Int) := fun h => h1 (Or.inl h)
    have h1b : ¬ toInt P.GetTempPath = 0 := fun h => h1 (Or.inr h)
    simp [h2]
  · have h1a : ¬ toInt P.GetTempPath > (MAX_PATH : Int) := fun h => h1 (Or.inl h)
    have h1b : ¬ toInt P.GetTempPath = 0 := fun h => h1 (Or.inr h)
    simp [h3]
  · have h1a : ¬ toInt P.GetTempPath > (MAX_PATH : Int) := fun h => h1 (Or.inl h)
    have h1b : ¬ toInt P.GetTempPath = 0 := fun h => h1 (Or.inr h)
    constructor
    · intro h; cases h
    · rintro (h | h | h | h)
      · exact absurd h h1a
      · exact absurd h h1b
      · exact absurd h h2
      · exact absurd h h3

theorem sdk_launcher_not_created (P : Platform) (fuel : Nat)
    (hc : (create_temp_file P).1 = HANDLE.INVALID_HANDLE_VALUE) :
    sdk_launcher P fuel = some (1, (create_temp_file P).2) := by
  simp only [sdk_launcher, hc, if_true]

theorem sdk_launcher_no_module (P : Platform) (fuel : Nat)
    (hc : (create_temp_file P).1 ≠ HANDLE.INVALID_HANDLE_VALUE)
    (hm : P.GetModuleFileName = 0) :
    sdk_launcher P fuel = some (1,
      [Event.GetTempPath, Event.GetTempFileName, Event.CreateFile_write,
        Event.GetModuleFileName, Event.display_error "Failed to get program's filename:"]
        ++ close_events P ++ delete_events P) := by
  unfold sdk_launcher
  rw [create_temp_file_valid P hc]
  simp [hm, close_events, delete_events, display_error]

theorem sdk_launcher_no_spawn (P : Platform) (fuel : Nat)
    (hc : (create_temp_file P).1 ≠ HANDLE.INVALID_HANDLE_VALUE)
    (hm : P.GetModuleFileName ≠ 0) (hs : P.CreateProcess = false) :
    sdk_launcher P fuel = some (1,
      [Event.GetTempPath, Event.GetTempFileName, Event.CreateFile_write,
        Event.GetModuleFileName,
        Event.CreateProcess (cstr 0 (strip_dir P.program_dir P.GetModuleFileName) 0),
        Event.display_error "Failed to execute tools\\android.bat:"]
        ++ close_events P ++ delete_events P) := by
  unfold sdk_launcher
  rw [create_temp_file_valid P hc]
  simp [hm, hs, close_events, delete_events, display_error]

theorem sdk_launcher_spawned (P : Platform) (fuel : Nat) (evs : List Event)
    (hc : (create_temp_file P).1 ≠ HANDLE.INVALID_HANDLE_VALUE)
    (hm : P.GetModuleFileName ≠ 0) (hs : P.CreateProcess ≠ false)
    (hevs : read_temp_file P fuel = some evs) :
    sdk_launcher P fuel = some (0,
      [Event.GetTempPath, Event.GetTempFileName, Event.CreateFile_write,
        Event.GetModuleFileName,
        Event.CreateProcess (cstr 0 (strip_dir P.program_dir P.GetModuleFileName) 0),
        Event.WaitForSingleObject, Event.CloseHandle HANDLE.hProcess,
        Event.CloseHandle HANDLE.hThread]
        ++ close_events P ++ evs ++ delete_events P) := by
  unfold sdk_launcher
  rw [create_temp_file_valid P hc]
  simp [hm, hs, hevs, close_events, delete_events, display_error]

/-- C6: when a successful `ReadFile` returns at most the bytes asked for, `sdk_launcher`
returns (its read loop ends within `size + 1` iterations), and the value it returns is
`1` exactly when the temp file is not created, or `GetModuleFileName` returns `0`, or
`CreateProcess` fails, and `0` exactly otherwise. The temp file is not created exactly
when `GetTempPath`, `GetTempFileName` or the creating `CreateFile` fails, so the answers
of `CloseHandle`, of the reopening and reading of the temp file and of `DeleteFile` have
no part in the value returned. -/
theorem sdk_launcher_result (P : Platform) (fuel : Nat) (hRF : ReadFile_bounded P)
    (hfuel : size + 1 ≤ fuel) :
    (∃ result trace, sdk_launcher P fuel = some (result, trace) ∧
      (result = 1 ↔ fatal P) ∧ (result = 0 ↔ ¬ fatal P)) ∧
    (fatal P ↔
      ((toInt P.GetTempPath > (MAX_PATH : Int) ∨ toInt P.GetTempPath = 0 ∨
          P.GetTempFileName = false ∨ P.CreateFile_write = false) ∨
        P.GetModuleFileName = 0 ∨ P.CreateProcess = false)) := by
  obtain ⟨evs, hevs⟩ := read_temp_file_total P fuel hRF hfuel
  refine ⟨?_, or_congr_left (create_temp_file_invalid_iff P)⟩
  unfold fatal
  by_cases hc : (create_temp_file P).1 = HANDLE.INVALID_HANDLE_VALUE
  · exact ⟨1, _, sdk_launcher_not_created P fuel hc, by simp [hc], by simp [hc]⟩
  · by_cases hm : P.GetModuleFileName = 0
    · exact ⟨1, _, sdk_launcher_no_module P fuel hc hm, by simp [hm], by simp [hm]⟩
    · by_cases hs : P.CreateProcess = false
      · exact ⟨1, _, sdk_launcher_no_spawn P fuel hc hm hs, by simp [hs], by simp [hs]⟩
      · exact ⟨0, _, sdk_launcher_spawned P fuel evs hc hm hs hevs,
          by simp [hc, hm, hs], by simp [hc, hm, hs]⟩

theorem platform_ok_ReadFile_bounded (file : List Nat) : ReadFile_bounded (platform_ok file) := by
  intro calls filepos num_left k hk
  have h : some (min num_left (file.length - filepos)) = some k := hk
  cases h
  exact Nat.min_le_left _ _

/-- Witness of C6 on a platform where every call succeeds and the child writes nothing:
`sdk_launcher` returns, and what it returns is `0`. -/
theorem sdk_launcher_result_witness :
    ¬ fatal (platform_ok []) ∧
    ∃ result trace, sdk_launcher (platform_ok []) 4097 = some (result, trace) ∧
      (result = 1 ↔ fatal (platform_ok [])) ∧ (result = 0 ↔ ¬ fatal (platform_ok [])) :=
  ⟨by unfold fatal; decide,
    (sdk_launcher_result (platform_ok []) 4097 (platform_ok_ReadFile_bounded [])
      (by decide)).1⟩

/-- C7 as stated fails: when `GetTempPath` fails, `sdk_launcher` returns `1` after the
error report, and `DeleteFile` is not among its calls. -/
theorem sdk_launcher_no_delete_without_temp_file :
    sdk_launcher platform_no_temp_path 4097 =
        some (1, [Event.GetTempPath, Event.display_error "GetTempPath failed"]) ∧
      Event.DeleteFile ∉ [Event.GetTempPath, Event.display_error "GetTempPath failed"] := by
  constructor
  · decide
  · decide

/-- C7, as amended: on every run of `sdk_launcher` in which the temp file was created,
whether `GetModuleFileName` or `CreateProcess` fails (the function then returns for
every fuel) or neither does (it returns when successful `ReadFile`s return at most the
bytes asked for), `DeleteFile` is called, and only the report of its failure comes
after it before the function returns. -/
theorem sdk_launcher_deletes_temp_file (P : Platform) (fuel : Nat)
    (hc : (create_temp_file P).1 ≠ HANDLE.INVALID_HANDLE_VALUE)
    (hrun : (P.GetModuleFileName = 0 ∨ P.CreateProcess = false) ∨
      (ReadFile_bounded P ∧ size + 1 ≤ fuel)) :
    ∃ result before, sdk_launcher P fuel = some (result,
      before ++ Event.DeleteFile ::
        (if P.DeleteFile = false then [Event.display_error "Delete temp file failed"]
          else [])) ∧
      ((P.GetModuleFileName = 0 ∨ P.CreateProcess = false) → result = 1) := by
  by_cases hm : P.GetModuleFileName = 0
  · exact ⟨1, _, sdk_launcher_no_module P fuel hc hm, fun _ => rfl⟩
  · by_cases hs : P.CreateProcess = false
    · exact ⟨1, _, sdk_launcher_no_spawn P fuel hc hm hs, fun _ => rfl⟩
    · rcases hrun with (h | h) | ⟨hRF, hfuel⟩
      · exact absurd h hm
      · exact absurd h hs
      · obtain ⟨evs, hevs⟩ := read_temp_file_total P fuel hRF hfuel
        exact ⟨0, _, sdk_launcher_spawned P fuel evs hc hm hs hevs,
          fun h => (h.elim (fun h1 => absurd h1 hm) (fun h2 => absurd h2 hs))⟩

/-- Witness of C7, as amended, on a platform where only `CreateProcess` fails. -/
theorem sdk_launcher_deletes_temp_file_witness :
    ∃ result before, sdk_launcher platform_no_spawn 0 = some (result,
      before ++ Event.DeleteFile ::
        (if platform_no_spawn.DeleteFile = false then
          [Event.display_error "Delete temp file failed"] else [])) ∧
      ((platform_no_spawn.GetModuleFileName = 0 ∨ platform_no_spawn.CreateProcess = false) →
        result = 1) :=
  sdk_launcher_deletes_temp_file platform_no_spawn 0 (by decide) (Or.inl (Or.inr rfl))

/-- C8: when the temp file was created and `GetModuleFileName` succeeded but
`CreateProcess` fails, `sdk_launcher` returns `1` (for every fuel) after exactly these
calls: the three of `create_temp_file`, `GetModuleFileName`, `CreateProcess`, the error
report, `CloseHandle(temp_handle)` and `DeleteFile`, each of the last two followed by
its error report when it fails. There is no `WaitForSingleObject`, no reopening or
reading of the temp file and no message box among them. -/
theorem sdk_launcher_spawn_failure (P : Platform) (fuel : Nat)
    (hc : (create_temp_file P).1 ≠ HANDLE.INVALID_HANDLE_VALUE)
    (hm : P.GetModuleFileName ≠ 0) (hs : P.CreateProcess = false) :
    ∃ trace, sdk_launcher P fuel = some (1, trace) ∧
      trace =
        [Event.GetTempPath, Event.GetTempFileName, Event.CreateFile_write,
          Event.GetModuleFileName,
          Event.CreateProcess (cstr 0 (strip_dir P.program_dir P.GetModuleFileName) 0),
          Event.display_error "Failed to execute tools\\android.bat:",
          Event.CloseHandle HANDLE.temp_handle]
        ++ (if P.CloseHandle_temp = false then
              [Event.display_error "CloseHandle temp file failed"] else [])
        ++ [Event.DeleteFile]
        ++ (if P.DeleteFile = false then
              [Event.display_error "Delete temp file failed"] else []) ∧
      Event.WaitForSingleObject ∉ trace ∧
      Event.CreateFile_read ∉ trace ∧
      (∀ num_left, Event.ReadFile num_left ∉ trace) ∧
      (∀ lpText text lpCaption, Event.MessageBox lpText text lpCaption ∉ trace) ∧
      Event.CloseHandle HANDLE.temp_handle ∈ trace ∧
      Event.DeleteFile ∈ trace := by
  refine ⟨_, sdk_launcher_no_spawn P fuel hc hm hs, ?_, ?_, ?_, ?_, ?_, ?_, ?_⟩
  · simp [close_events, delete_events, display_error]
  all_goals
    cases P.CloseHandle_temp <;> cases P.DeleteFile <;>
      simp [close_events, delete_events, display_error]

/-- Witness of C8 on a platform where only `CreateProcess` fails. -/
theorem sdk_launcher_spawn_failure_witness :
    sdk_launcher platform_no_spawn 0 = some (1,
      [Event.GetTempPath, Event.GetTempFileName, Event.CreateFile_write,
        Event.GetModuleFileName, Event.CreateProcess [67, 58, 92, 97],
        Event.display_error "Failed to execute tools\\android.bat:",
        Event.CloseHandle HANDLE.temp_handle, Event.DeleteFile]) := by
  obtain ⟨trace, h1, h2, -⟩ :=
    sdk_launcher_spawn_failure platform_no_spawn 0 (by decide) (by decide) rfl
  rw [h1, h2]
  decide

/-- The whole of `read_temp_file` when the temp file opens and every `ReadFile` succeeds:
the read loop leaves the first `min n size` bytes of the file in the block, and the
scanning block runs on them. -/
theorem read_temp_file_reads_then_scans (P : Platform) (fuel : Nat)
    (hopen : P.CreateFile_read = true) (hheap : P.heap.length = size + 1)
    (hRF : ReadFile_succeeds P) (hfuel : size + 1 ≤ fuel) :
    ∃ st : ReadState,
      read_temp_file P fuel = some (st.events
        ++ read_temp_file_scan P.malloc st.mem (P.malloc + min P.file.length size)
        ++ [Event.CloseHandle HANDLE.handle]
        ++ (if P.CloseHandle_read = false then
              display_error "CloseHandle read temp file failed" else [])) ∧
      st.mem.take (min P.file.length size) = P.file.take (min P.file.length size) ∧
      min P.file.length size < st.mem.length := by
  have hinv0 : loop_inv P
      { mem := P.heap, p := P.malloc, num_left := size, filepos := 0, calls := 0,
        events := [Event.CreateFile_read] } :=
    ⟨rfl, rfl, Nat.zero_le _, hheap, rfl⟩
  obtain ⟨st, hst, ⟨hp, _, _, hlen, htake⟩, hfin⟩ :=
    read_loop_terminates P hRF fuel _ hinv0 (by show size - 0 + 1 ≤ fuel; omega)
  refine ⟨st, ?_, ?_, ?_⟩
  · unfold read_temp_file
    simp only [hopen, Bool.true_eq_false, if_false, hst, hp, hfin]
  · rw [← hfin]; exact htake
  · rw [hlen]; omega

/-- A child that writes nothing, on a platform where every call succeeds: `sdk_launcher`
returns `0`, and neither an error report nor a message box is among its calls. -/
theorem sdk_launcher_silent_on_empty_output :
    sdk_launcher (platform_ok []) 4097 = some (0,
      [Event.GetTempPath, Event.GetTempFileName, Event.CreateFile_write,
        Event.GetModuleFileName, Event.CreateProcess [67, 58, 92, 97],
        Event.WaitForSingleObject, Event.CloseHandle HANDLE.hProcess,
        Event.CloseHandle HANDLE.hThread, Event.CloseHandle HANDLE.temp_handle,
        Event.CreateFile_read, Event.ReadFile 4096, Event.CloseHandle HANDLE.handle,
        Event.DeleteFile]) := by
  decide

end SdkLauncher
